import Mathlib

/-!
# Verification of the API-SUT item store (src/main.py)

A shallow embedding of the in-memory CRUD item store from `src/main.py`.
The Python dictionary `data_store : dict[int, dict]` is modelled as an
association list `List (Int × Item)` with Python-dict semantics
(assignment to an existing key keeps its position, assignment to a fresh
key appends, deletion removes the key).  Python's unbounded `int` is
modelled by `Int`, timestamps (`datetime.now()`) by an abstract `Nat`
clock passed to each operation, and the `StrictFloat` price by `Rat`
(the operations only store and compare prices; no float arithmetic
occurs).
-/

/-- The validated payload fields of `ItemBase` / `ItemCreate` / `ItemUpdate`
(src/main.py lines 46–61): name, optional description, price, quantity. -/
structure ItemFields where
  name : String
  description : Option String
  price : Rat
  quantity : Int
deriving DecidableEq, Repr

/-- The complete item record stored in `data_store` (the dict built in
`create_item` / `update_item` / `initialize_demo_data`): payload fields plus
`id`, `created_at`, `updated_at`. -/
structure Item where
  id : Int
  name : String
  description : Option String
  price : Rat
  quantity : Int
  created_at : Nat
  updated_at : Nat
deriving DecidableEq, Repr

/-- The payload part of a stored item (projection used to compare a stored
record with the request body it came from). -/
def Item.fields (it : Item) : ItemFields :=
  ⟨it.name, it.description, it.price, it.quantity⟩

/-- Pydantic validation of `ItemBase` (src/main.py lines 46–51):
`name` has `min_length=1, max_length=100`; `description` is optional with
`max_length=500`; `price` is a strict float with `gt=0`; `quantity` is a
strict int with `ge=0`. -/
def validFields (f : ItemFields) : Bool :=
  decide (1 ≤ f.name.length) && decide (f.name.length ≤ 100) &&
    (match f.description with
     | none => true
     | some d => decide (d.length ≤ 500)) &&
    decide (0 < f.price) && decide (0 ≤ f.quantity)

/-- Errors surfaced to the caller: `httpException` models a raised
`HTTPException(status_code, detail)`; `validationError` models the
framework's 422 schema-validation rejection that fires before a handler
runs. -/
inductive ApiError where
  | httpException (status_code : Nat) (detail : String)
  | validationError
deriving DecidableEq, Repr

/-- The 404 error raised by `get_item_by_id`, `update_item` and
`delete_item`: `HTTPException(404, f"Item with id {item_id} not found")`. -/
def notFound (item_id : Int) : ApiError :=
  .httpException 404 s!"Item with id {item_id} not found"

/-- The global mutable state of src/main.py: `data_store` (line 90) and
`next_id` (line 91). -/
structure StoreState where
  data_store : List (Int × Item)
  next_id : Int
deriving DecidableEq, Repr

/-- `item_id in data_store`: Python dict key-membership test. -/
def dictContains (l : List (Int × Item)) (k : Int) : Bool :=
  l.any (fun p => p.1 = k)

/-- `data_store[item_id]`: Python dict key lookup (first entry with the key;
the store never holds duplicate keys). -/
def dictGet? (l : List (Int × Item)) (k : Int) : Option Item :=
  match l with
  | [] => none
  | p :: rest => if p.1 = k then some p.2 else dictGet? rest k

/-- `data_store[item_id] = v`: Python dict assignment.  An existing key keeps
its insertion position and gets the new value; a fresh key is appended. -/
def dictSet (l : List (Int × Item)) (k : Int) (v : Item) : List (Int × Item) :=
  if dictContains l k then
    l.map (fun p => if p.1 = k then (k, v) else p)
  else
    l ++ [(k, v)]

/-- `del data_store[item_id]`: Python dict deletion. -/
def dictDel (l : List (Int × Item)) (k : Int) : List (Int × Item) :=
  l.filter (fun p => decide ¬(p.1 = k))

/-- The fresh state before `initialize_demo_data` runs: empty store,
`next_id = 1` (src/main.py lines 90–91). -/
def emptyState : StoreState := ⟨[], 1⟩

/-- `get_all_items` (src/main.py line 156): `list(data_store.values())`. -/
def get_all_items (s : StoreState) : List Item :=
  s.data_store.map Prod.snd

/-- `get_item_by_id` (src/main.py line 183): 404 if the id is absent,
otherwise `data_store[item_id]`. -/
def get_item_by_id (s : StoreState) (item_id : Int) : Except ApiError Item :=
  if ¬ dictContains s.data_store item_id then
    .error (notFound item_id)
  else
    match dictGet? s.data_store item_id with
    | some it => .ok it
    | none => .error (notFound item_id)

/-- The handler body of `create_item` (src/main.py lines 207–231), reached
only after pydantic accepted the body: build the record with `id = next_id`,
`created_at = updated_at = now`, store it at `next_id`, increment `next_id`,
return the new item. -/
def create_item (s : StoreState) (now : Nat) (item : ItemFields) :
    Item × StoreState :=
  let new_item : Item :=
    { id := s.next_id, name := item.name, description := item.description,
      price := item.price, quantity := item.quantity,
      created_at := now, updated_at := now }
  (new_item,
   { data_store := dictSet s.data_store s.next_id new_item,
     next_id := s.next_id + 1 })

/-- The handler body of `update_item` (src/main.py lines 252–279), reached
only after pydantic accepted the body: 404 if the id is absent, otherwise
full replacement keeping `id` and the existing `created_at`, with
`updated_at = now`. -/
def update_item (s : StoreState) (now : Nat) (item_id : Int)
    (item : ItemFields) : Except ApiError Item × StoreState :=
  if ¬ dictContains s.data_store item_id then
    (.error (notFound item_id), s)
  else
    match dictGet? s.data_store item_id with
    | none => (.error (notFound item_id), s)
    | some existing_item =>
      let updated_item : Item :=
        { id := item_id, name := item.name, description := item.description,
          price := item.price, quantity := item.quantity,
          created_at := existing_item.created_at, updated_at := now }
      (.ok updated_item,
       { s with data_store := dictSet s.data_store item_id updated_item })

/-- `delete_item` (src/main.py lines 299–315): 404 if the id is absent,
otherwise remove the key and return no content. -/
def delete_item (s : StoreState) (item_id : Int) :
    Except ApiError Unit × StoreState :=
  if ¬ dictContains s.data_store item_id then
    (.error (notFound item_id), s)
  else
    (.ok (), { s with data_store := dictDel s.data_store item_id })

/-- The POST /items endpoint as seen by a client: the framework validates the
body against `ItemCreate` (rejecting with a 422-style validation error before
the handler runs), then calls `create_item`. -/
def post_items (s : StoreState) (now : Nat) (f : ItemFields) :
    Except ApiError Item × StoreState :=
  if validFields f then
    let r := create_item s now f
    (.ok r.1, r.2)
  else
    (.error .validationError, s)

/-- The PUT /items/\x7bid\x7d endpoint as seen by a client: the framework
validates the body against `ItemUpdate` before the handler runs, then calls
`update_item`. -/
def put_items (s : StoreState) (now : Nat) (item_id : Int) (f : ItemFields) :
    Except ApiError Item × StoreState :=
  if validFields f then
    update_item s now item_id f
  else
    (.error .validationError, s)

/-- The demo payloads of `initialize_demo_data` (src/main.py lines 98–129),
in order. -/
def demo_items : List ItemFields :=
  [⟨"Wireless Mouse", some "Ergonomic wireless mouse with adjustable DPI",
    (2999 : Rat) / 100, 150⟩,
   ⟨"Mechanical Keyboard", some "RGB mechanical keyboard with Cherry MX switches",
    (14999 : Rat) / 100, 75⟩,
   ⟨"USB-C Hub", some "7-in-1 USB-C hub with HDMI, USB 3.0, and SD card reader",
    (4999 : Rat) / 100, 200⟩,
   ⟨"Monitor Stand", some "Adjustable monitor stand with cable management",
    (7999 : Rat) / 100, 50⟩,
   ⟨"Webcam HD", some "1080p HD webcam with built-in microphone",
    (8999 : Rat) / 100, 120⟩]

/-- The loop body of `initialize_demo_data` (src/main.py lines 131–139):
for each payload, take a fresh `now`, store the record at `next_id` with
`created_at = updated_at = now`, increment `next_id`.  The mutation is
exactly that of `create_item`. -/
def init_loop (s : StoreState) : List (ItemFields × Nat) → StoreState
  | [] => s
  | (f, now) :: rest => init_loop (create_item s now f).2 rest

/-- `initialize_demo_data` (src/main.py lines 94–139), run at import time
(line 143), with the five successive `datetime.now()` readings abstracted as
the list `ts`. -/
def initialize_demo_data (ts : List Nat) : StoreState :=
  init_loop emptyState (demo_items.zip ts)

/-- One client-visible operation with the clock reading(s) it consumes. -/
inductive Op where
  | listAll
  | get (item_id : Int)
  | post (now : Nat) (f : ItemFields)
  | put (now : Nat) (item_id : Int) (f : ItemFields)
  | del (item_id : Int)

/-- The state after serving one request (responses disregarded). -/
def applyOp (s : StoreState) : Op → StoreState
  | .listAll => s
  | .get _ => s
  | .post now f => (post_items s now f).2
  | .put now item_id f => (put_items s now item_id f).2
  | .del item_id => (delete_item s item_id).2

/-- The state after serving a sequence of requests. -/
def runOps (s : StoreState) : List Op → StoreState
  | [] => s
  | op :: rest => runOps (applyOp s op) rest

/-- The ids handed out by serving one request: POST /items with an accepted
body assigns `next_id`; every other request assigns none. -/
def opIssued (s : StoreState) : Op → List Int
  | .listAll => []
  | .get _ => []
  | .post _ f => if validFields f then [s.next_id] else []
  | .put _ _ _ => []
  | .del _ => []

/-- The ids handed out by POST /items along a sequence of requests, in
order (a rejected body is not assigned an id). -/
def issuedIds (s : StoreState) : List Op → List Int
  | [] => []
  | op :: rest => opIssued s op ++ issuedIds (applyOp s op) rest

/-- A valid sample request body (spec section 8: name "Widget", price 10.0,
quantity 5). -/
def sampleFields : ItemFields := ⟨"Widget", none, 10, 5⟩

/-- A second valid sample body, used as a replacement payload. -/
def sampleFields2 : ItemFields := ⟨"Widget2", some "a better widget", 12, 3⟩

/-- An invalid sample body (empty name). -/
def badFields : ItemFields := ⟨"", none, 10, 5⟩

/-- The startup state with all five demo clock readings fixed to 0. -/
def demoStateZero : StoreState := initialize_demo_data [0, 0, 0, 0, 0]

/-! ## Dictionary lemmas -/

theorem dictContains_eq_false_iff {l : List (Int × Item)} {k : Int} :
    dictContains l k = false ↔ ∀ p ∈ l, p.1 ≠ k := by
  simp [dictContains]

theorem dictGet?_isSome {l : List (Int × Item)} {k : Int} :
    (dictGet? l k).isSome = dictContains l k := by
  induction l with
  | nil => simp [dictGet?, dictContains]
  | cons p rest ih =>
    by_cases h : p.1 = k <;> simp [dictGet?, dictContains, h] at ih ⊢
    simpa [dictContains] using ih

theorem dictGet?_eq_none_of_not_contains {l : List (Int × Item)} {k : Int}
    (h : dictContains l k = false) : dictGet? l k = none := by
  have := dictGet?_isSome (l := l) (k := k)
  rw [h] at this
  exact Option.not_isSome_iff_eq_none.1 (by simp [this])

theorem dictGet?_append_of_not_contains {l m : List (Int × Item)} {k : Int}
    (h : dictContains l k = false) : dictGet? (l ++ m) k = dictGet? m k := by
  induction l with
  | nil => simp
  | cons p rest ih =>
    rw [dictContains_eq_false_iff] at h
    have hp : p.1 ≠ k := h p (by simp)
    have hrest : dictContains rest k = false := by
      rw [dictContains_eq_false_iff]
      exact fun q hq => h q (by simp [hq])
    simpa [dictGet?, hp] using ih hrest

theorem dictGet?_map_replace {l : List (Int × Item)} {k : Int} {v : Item} :
    dictGet? (l.map (fun p => if p.1 = k then (k, v) else p)) k
      = (dictGet? l k).map (fun _ => v) := by
  induction l with
  | nil => simp [dictGet?]
  | cons p rest ih =>
    by_cases h : p.1 = k <;> simp [dictGet?, h, ih]

theorem dictGet?_dictSet_self {l : List (Int × Item)} {k : Int} {v : Item} :
    dictGet? (dictSet l k v) k = some v := by
  unfold dictSet
  by_cases h : dictContains l k
  · rw [if_pos h, dictGet?_map_replace]
    have : (dictGet? l k).isSome = true := by rw [dictGet?_isSome, h]
    obtain ⟨it, hit⟩ := Option.isSome_iff_exists.1 this
    simp [hit]
  · rw [if_neg h, dictGet?_append_of_not_contains (by simpa using h)]
    simp [dictGet?]

theorem dictGet?_map_replace_ne {l : List (Int × Item)} {k k' : Int} {v : Item}
    (h : k' ≠ k) :
    dictGet? (l.map (fun p => if p.1 = k then (k, v) else p)) k'
      = dictGet? l k' := by
  induction l with
  | nil => simp [dictGet?]
  | cons p rest ih =>
    by_cases hp : p.1 = k
    · have h1 : ¬((k : Int) = k') := fun hk => h hk.symm
      have h2 : ¬(p.1 = k') := by rw [hp]; exact h1
      simp [dictGet?, hp, h1, h2, ih]
    · by_cases hp' : p.1 = k' <;> simp [dictGet?, hp, hp', ih, h]

theorem dictGet?_append_single_ne {l : List (Int × Item)} {k k' : Int}
    {v : Item} (h : k' ≠ k) : dictGet? (l ++ [(k, v)]) k' = dictGet? l k' := by
  induction l with
  | nil =>
    have h1 : ¬((k : Int) = k') := fun hk => h hk.symm
    simp [dictGet?, h1]
  | cons p rest ih =>
    by_cases hp' : p.1 = k' <;> simp [dictGet?, hp', ih]

theorem dictGet?_dictSet_ne {l : List (Int × Item)} {k k' : Int} {v : Item}
    (h : k' ≠ k) : dictGet? (dictSet l k v) k' = dictGet? l k' := by
  unfold dictSet
  by_cases hc : dictContains l k
  · rw [if_pos hc]; exact dictGet?_map_replace_ne h
  · rw [if_neg hc]; exact dictGet?_append_single_ne h

theorem dictContains_dictSet_ne {l : List (Int × Item)} {k k' : Int} {v : Item}
    (h : k' ≠ k) : dictContains (dictSet l k v) k' = dictContains l k' := by
  rw [← dictGet?_isSome, ← dictGet?_isSome, dictGet?_dictSet_ne h]

theorem mem_dictSet {l : List (Int × Item)} {k : Int} {v : Item} {p : Int × Item}
    (h : p ∈ dictSet l k v) : p = (k, v) ∨ p ∈ l := by
  unfold dictSet at h
  by_cases hc : dictContains l k
  · rw [if_pos hc] at h
    obtain ⟨q, hq, hpq⟩ := List.mem_map.1 h
    by_cases hqk : q.1 = k
    · left; rw [← hpq]; simp [hqk]
    · right; rw [← hpq]; simpa [hqk] using hq
  · rw [if_neg hc] at h
    rcases List.mem_append.1 h with h' | h'
    · right; exact h'
    · left; simpa using h'

theorem mem_dictDel {l : List (Int × Item)} {k : Int} {p : Int × Item}
    (h : p ∈ dictDel l k) : p ∈ l :=
  List.mem_of_mem_filter h

theorem dictContains_dictDel_self {l : List (Int × Item)} {k : Int} :
    dictContains (dictDel l k) k = false := by
  rw [dictContains_eq_false_iff]
  intro p hp
  have := List.of_mem_filter hp
  simpa using this

theorem dictGet?_dictDel_self {l : List (Int × Item)} {k : Int} :
    dictGet? (dictDel l k) k = none :=
  dictGet?_eq_none_of_not_contains dictContains_dictDel_self

theorem dictGet?_dictDel_ne {l : List (Int × Item)} {k k' : Int}
    (h : k' ≠ k) : dictGet? (dictDel l k) k' = dictGet? l k' := by
  induction l with
  | nil => simp [dictDel, dictGet?]
  | cons p rest ih =>
    by_cases hp : p.1 = k
    · have h2 : ¬(p.1 = k') := by rw [hp]; exact fun hk => h hk.symm
      rw [show dictDel (p :: rest) k = dictDel rest k by simp [dictDel, hp]]
      rw [ih]
      simp [dictGet?, h2]
    · rw [show dictDel (p :: rest) k = p :: dictDel rest k by
        simp [dictDel, hp]]
      by_cases hp' : p.1 = k' <;> simp [dictGet?, hp', ih]

theorem dictContains_dictDel_ne {l : List (Int × Item)} {k k' : Int}
    (h : k' ≠ k) : dictContains (dictDel l k) k' = dictContains l k' := by
  rw [← dictGet?_isSome, ← dictGet?_isSome, dictGet?_dictDel_ne h]

theorem keys_dictSet {l : List (Int × Item)} {k : Int} {v : Item} :
    (dictSet l k v).map Prod.fst =
      if dictContains l k then l.map Prod.fst else l.map Prod.fst ++ [k] := by
  unfold dictSet
  by_cases hc : dictContains l k
  · rw [if_pos hc, if_pos hc, List.map_map]
    apply List.map_congr_left
    intro p _
    by_cases hp : p.1 = k <;> simp [Function.comp, hp]
  · rw [if_neg hc, if_neg hc]
    simp

/-! ## Normal forms for the handlers -/

theorem get_item_by_id_eq (s : StoreState) (item_id : Int) :
    get_item_by_id s item_id =
      match dictGet? s.data_store item_id with
      | some it => .ok it
      | none => .error (notFound item_id) := by
  unfold get_item_by_id
  by_cases h : dictContains s.data_store item_id
  · simp [h]
  · have hn := dictGet?_eq_none_of_not_contains (by simpa using h)
    simp [h, hn]

theorem update_item_eq (s : StoreState) (now : Nat) (item_id : Int)
    (f : ItemFields) :
    update_item s now item_id f =
      match dictGet? s.data_store item_id with
      | none => (.error (notFound item_id), s)
      | some existing_item =>
        let updated_item : Item :=
          { id := item_id, name := f.name, description := f.description,
            price := f.price, quantity := f.quantity,
            created_at := existing_item.created_at, updated_at := now }
        (.ok updated_item,
         { s with data_store := dictSet s.data_store item_id updated_item }) := by
  unfold update_item
  by_cases h : dictContains s.data_store item_id
  · simp [h]
  · have hn := dictGet?_eq_none_of_not_contains (by simpa using h)
    simp [h, hn]

theorem delete_item_eq (s : StoreState) (item_id : Int) :
    delete_item s item_id =
      match dictGet? s.data_store item_id with
      | none => (.error (notFound item_id), s)
      | some _ =>
        (.ok (), { s with data_store := dictDel s.data_store item_id }) := by
  unfold delete_item
  by_cases h : dictContains s.data_store item_id
  · have : (dictGet? s.data_store item_id).isSome = true := by
      rw [dictGet?_isSome, h]
    obtain ⟨it, hit⟩ := Option.isSome_iff_exists.1 this
    simp [h, hit]
  · have hn := dictGet?_eq_none_of_not_contains (by simpa using h)
    simp [h, hn]

/-! ## Monotonicity of the id counter -/

theorem next_id_applyOp (s : StoreState) (op : Op) :
    s.next_id ≤ (applyOp s op).next_id := by
  cases op with
  | listAll => simp [applyOp]
  | get item_id => simp [applyOp]
  | post now f =>
    by_cases hv : validFields f
    · simp [applyOp, post_items, create_item, hv]
    · simp [applyOp, post_items, hv]
  | put now item_id f =>
    by_cases hv : validFields f
    · rw [applyOp, put_items, if_pos hv, update_item_eq]
      cases dictGet? s.data_store item_id <;> simp
    · simp [applyOp, put_items, hv]
  | del item_id =>
    rw [applyOp, delete_item_eq]
    cases dictGet? s.data_store item_id <;> simp

theorem next_id_post_valid (s : StoreState) (now : Nat) (f : ItemFields)
    (hv : validFields f = true) :
    (applyOp s (.post now f)).next_id = s.next_id + 1 := by
  simp [applyOp, post_items, create_item, hv]

theorem le_of_mem_issuedIds :
    ∀ (ops : List Op) (s : StoreState) (i : Int),
      i ∈ issuedIds s ops → s.next_id ≤ i := by
  intro ops
  induction ops with
  | nil => intro s i hi; simp [issuedIds] at hi
  | cons op rest ih =>
    intro s i hi
    rw [issuedIds] at hi
    rcases List.mem_append.1 hi with h | h
    · cases op with
      | post now f =>
        by_cases hv : validFields f
        · simp [opIssued, hv] at h
          omega
        · simp [opIssued, hv] at h
      | listAll => simp [opIssued] at h
      | get item_id => simp [opIssued] at h
      | put now item_id f => simp [opIssued] at h
      | del item_id => simp [opIssued] at h
    · exact le_trans (next_id_applyOp s op) (ih _ _ h)

theorem pairwise_issuedIds (ops : List Op) :
    ∀ s : StoreState, List.Pairwise (· < ·) (issuedIds s ops) := by
  induction ops with
  | nil => intro s; simp [issuedIds]
  | cons op rest ih =>
    intro s
    cases op with
    | post now f =>
      by_cases hv : validFields f
      · rw [issuedIds]
        have hcons :
            opIssued s (Op.post now f) ++ issuedIds (applyOp s (.post now f)) rest
              = s.next_id :: issuedIds (applyOp s (.post now f)) rest := by
          simp [opIssued, hv]
        rw [hcons, List.pairwise_cons]
        refine ⟨fun i hi => ?_, ih _⟩
        have h1 := le_of_mem_issuedIds rest _ i hi
        rw [next_id_post_valid s now f hv] at h1
        omega
      · rw [issuedIds]
        simp [opIssued, hv]
        exact ih _
    | listAll => rw [issuedIds]; simp [opIssued]; exact ih _
    | get item_id => rw [issuedIds]; simp [opIssued]; exact ih _
    | put now item_id f => rw [issuedIds]; simp [opIssued]; exact ih _
    | del item_id => rw [issuedIds]; simp [opIssued]; exact ih _

/-! ## Store invariants -/

/-- Every key in the store is below the id counter (no stored id has been
issued for the future). -/
def KeysLt (s : StoreState) : Prop :=
  ∀ p ∈ s.data_store, p.1 < s.next_id

/-- Every stored record has coherent timestamps, both bounded by the last
clock reading `T`. -/
def TimeOK (s : StoreState) (T : Nat) : Prop :=
  ∀ p ∈ s.data_store, p.2.created_at ≤ p.2.updated_at ∧ p.2.updated_at ≤ T

/-- The store keys are pairwise distinct and each record's `id` field equals
the key it is stored under. -/
def GoodKeys (s : StoreState) : Prop :=
  (s.data_store.map Prod.fst).Nodup ∧ ∀ p ∈ s.data_store, p.2.id = p.1

/-- The clock reading after serving an operation, given the last reading `T`
before it: POST and PUT read `datetime.now()`, the others do not. -/
def opBound (T : Nat) : Op → Nat
  | .listAll => T
  | .get _ => T
  | .post now _ => now
  | .put now _ _ => now
  | .del _ => T

theorem mem_of_dictGet? {l : List (Int × Item)} {k : Int} {it : Item}
    (h : dictGet? l k = some it) : (k, it) ∈ l := by
  induction l with
  | nil => simp [dictGet?] at h
  | cons p rest ih =>
    by_cases hp : p.1 = k
    · rw [dictGet?, if_pos hp] at h
      have hpk : p = (k, it) := by
        cases p
        simp_all
      rw [hpk]
      exact List.mem_cons_self _ _
    · rw [dictGet?, if_neg hp] at h
      exact List.mem_cons_of_mem _ (ih h)

theorem contains_of_dictGet? {l : List (Int × Item)} {k : Int} {it : Item}
    (h : dictGet? l k = some it) : dictContains l k = true := by
  rw [← dictGet?_isSome, h]
  rfl

theorem dictContains_iff_mem_keys {l : List (Int × Item)} {k : Int} :
    dictContains l k = true ↔ k ∈ l.map Prod.fst := by
  simp [dictContains, List.any_eq_true]

theorem KeysLt_applyOp {s : StoreState} (op : Op) (h : KeysLt s) :
    KeysLt (applyOp s op) := by
  cases op with
  | listAll => exact h
  | get item_id => exact h
  | post now f =>
    by_cases hv : validFields f
    · intro p hp
      simp only [applyOp, post_items, if_pos hv, create_item] at hp ⊢
      rcases mem_dictSet hp with rfl | hmem
      · simp
      · have := h p hmem
        omega
    · simpa [applyOp, post_items, hv] using h
  | put now item_id f =>
    by_cases hv : validFields f
    · simp only [applyOp, put_items, if_pos hv, update_item_eq]
      cases hg : dictGet? s.data_store item_id with
      | none => exact h
      | some existing_item =>
        intro p hp
        simp only [] at hp
        rcases mem_dictSet hp with rfl | hmem
        · have := h _ (mem_of_dictGet? hg)
          simpa using this
        · exact h p hmem
    · simpa [applyOp, put_items, hv] using h
  | del item_id =>
    simp only [applyOp, delete_item_eq]
    cases hg : dictGet? s.data_store item_id with
    | none => exact h
    | some it =>
      intro p hp
      exact h p (mem_dictDel hp)

theorem TimeOK_applyOp {s : StoreState} {T : Nat} (op : Op)
    (h : TimeOK s T) (hT : T ≤ opBound T op) :
    TimeOK (applyOp s op) (opBound T op) := by
  cases op with
  | listAll => exact h
  | get item_id => exact h
  | post now f =>
    by_cases hv : validFields f
    · intro p hp
      simp only [applyOp, post_items, if_pos hv, create_item] at hp
      rcases mem_dictSet hp with rfl | hmem
      · simp [opBound]
      · have := h p hmem
        simp only [opBound] at hT ⊢
        omega
    · intro p hp
      simp only [applyOp, post_items, hv] at hp
      have := h p (by simpa using hp)
      simp only [opBound] at hT ⊢
      omega
  | put now item_id f =>
    by_cases hv : validFields f
    · simp only [applyOp, put_items, if_pos hv, update_item_eq]
      cases hg : dictGet? s.data_store item_id with
      | none =>
        intro p hp
        have := h p hp
        simp only [opBound] at hT ⊢
        omega
      | some existing_item =>
        intro p hp
        simp only [] at hp
        rcases mem_dictSet hp with rfl | hmem
        · have h2 := h _ (mem_of_dictGet? hg)
          simp only [opBound] at hT
          exact ⟨le_trans h2.1 (le_trans h2.2 hT), le_refl _⟩
        · have := h p hmem
          simp only [opBound] at hT ⊢
          omega
    · intro p hp
      simp only [applyOp, put_items, hv] at hp
      have := h p (by simpa using hp)
      simp only [opBound] at hT ⊢
      omega
  | del item_id =>
    simp only [applyOp, delete_item_eq, opBound]
    cases hg : dictGet? s.data_store item_id with
    | none => exact h
    | some it =>
      intro p hp
      exact h p (mem_dictDel hp)

theorem created_at_stable {s : StoreState} (op : Op) {k : Int} {it it' : Item}
    (hK : KeysLt s) (h : dictGet? s.data_store k = some it)
    (h' : dictGet? (applyOp s op).data_store k = some it') :
    it'.created_at = it.created_at := by
  cases op with
  | listAll =>
    rw [applyOp] at h'
    rw [h] at h'
    cases h'
    rfl
  | get item_id =>
    rw [applyOp] at h'
    rw [h] at h'
    cases h'
    rfl
  | post now f =>
    by_cases hv : validFields f
    · have hk : k ≠ s.next_id := by
        intro hk
        have := hK _ (mem_of_dictGet? h)
        omega
      rw [applyOp, post_items, if_pos hv] at h'
      simp only [create_item] at h'
      rw [dictGet?_dictSet_ne hk, h] at h'
      cases h'
      rfl
    · rw [applyOp, post_items, if_neg (by simpa using hv)] at h'
      simp only [] at h'
      rw [h] at h'
      cases h'
      rfl
  | put now item_id f =>
    by_cases hv : validFields f
    · rw [applyOp, put_items, if_pos hv, update_item_eq] at h'
      cases hg : dictGet? s.data_store item_id with
      | none =>
        rw [hg] at h'
        simp only [] at h'
        rw [h] at h'
        cases h'
        rfl
      | some existing_item =>
        rw [hg] at h'
        simp only [] at h'
        by_cases hk : k = item_id
        · subst hk
          rw [dictGet?_dictSet_self] at h'
          cases h'
          rw [hg] at h
          cases h
          rfl
        · rw [dictGet?_dictSet_ne hk, h] at h'
          cases h'
          rfl
    · rw [applyOp, put_items, if_neg (by simpa using hv)] at h'
      simp only [] at h'
      rw [h] at h'
      cases h'
      rfl
  | del item_id =>
    rw [applyOp, delete_item_eq] at h'
    cases hg : dictGet? s.data_store item_id with
    | none =>
      rw [hg] at h'
      simp only [] at h'
      rw [h] at h'
      cases h'
      rfl
    | some it0 =>
      rw [hg] at h'
      simp only [] at h'
      by_cases hk : k = item_id
      · subst hk
        rw [dictGet?_dictDel_self] at h'
        cases h'
      · rw [dictGet?_dictDel_ne hk, h] at h'
        cases h'
        rfl

theorem goodKeys_dictSet {s : StoreState} {k : Int} {v : Item}
    (h : GoodKeys s) (hid : v.id = k) :
    ((dictSet s.data_store k v).map Prod.fst).Nodup ∧
      ∀ p ∈ dictSet s.data_store k v, p.2.id = p.1 := by
  constructor
  · rw [keys_dictSet]
    by_cases hc : dictContains s.data_store k
    · rw [if_pos hc]
      exact h.1
    · rw [if_neg hc]
      have hk : k ∉ s.data_store.map Prod.fst := by
        intro hmem
        exact absurd (dictContains_iff_mem_keys.2 hmem) (by simpa using hc)
      simp [List.nodup_append, h.1, hk]
  · intro p hp
    rcases mem_dictSet hp with rfl | hmem
    · simpa using hid
    · exact h.2 p hmem

theorem goodKeys_create (s : StoreState) (now : Nat) (f : ItemFields)
    (h : GoodKeys s) : GoodKeys (create_item s now f).2 := by
  simp only [create_item]
  exact goodKeys_dictSet h rfl

theorem goodKeys_applyOp {s : StoreState} (op : Op) (h : GoodKeys s) :
    GoodKeys (applyOp s op) := by
  cases op with
  | listAll => exact h
  | get item_id => exact h
  | post now f =>
    by_cases hv : validFields f
    · rw [applyOp, post_items, if_pos hv]
      exact goodKeys_create s now f h
    · simpa [applyOp, post_items, hv] using h
  | put now item_id f =>
    by_cases hv : validFields f
    · rw [applyOp, put_items, if_pos hv, update_item_eq]
      cases hg : dictGet? s.data_store item_id with
      | none => exact h
      | some existing_item => exact goodKeys_dictSet h rfl
    · simpa [applyOp, put_items, hv] using h
  | del item_id =>
    rw [applyOp, delete_item_eq]
    cases hg : dictGet? s.data_store item_id with
    | none => exact h
    | some it =>
      constructor
      · exact ((List.filter_sublist _).map Prod.fst).nodup h.1
      · intro p hp
        exact h.2 p (mem_dictDel hp)

theorem goodKeys_init_loop (lst : List (ItemFields × Nat)) :
    ∀ s : StoreState, GoodKeys s → GoodKeys (init_loop s lst) := by
  induction lst with
  | nil => intro s h; exact h
  | cons ft rest ih =>
    intro s h
    rw [init_loop]
    exact ih _ (goodKeys_create s ft.2 ft.1 h)

theorem absent_applyOp {s : StoreState} {k : Int} (op : Op)
    (h : dictContains s.data_store k = false) (hlt : k < s.next_id) :
    dictContains (applyOp s op).data_store k = false ∧
      k < (applyOp s op).next_id := by
  cases op with
  | listAll => exact ⟨h, hlt⟩
  | get item_id => exact ⟨h, hlt⟩
  | post now f =>
    by_cases hv : validFields f
    · rw [applyOp, post_items, if_pos hv]
      simp only [create_item]
      refine ⟨?_, by omega⟩
      rw [dictContains_dictSet_ne (by omega)]
      exact h
    · rw [applyOp, post_items, if_neg (by simpa using hv)]
      exact ⟨h, hlt⟩
  | put now item_id f =>
    by_cases hv : validFields f
    · rw [applyOp, put_items, if_pos hv, update_item_eq]
      cases hg : dictGet? s.data_store item_id with
      | none => exact ⟨h, hlt⟩
      | some existing_item =>
        have hk : k ≠ item_id := by
          intro hk
          subst hk
          rw [contains_of_dictGet? hg] at h
          cases h
        refine ⟨?_, hlt⟩
        simp only []
        rw [dictContains_dictSet_ne hk]
        exact h
    · rw [applyOp, put_items, if_neg (by simpa using hv)]
      exact ⟨h, hlt⟩
  | del item_id =>
    rw [applyOp, delete_item_eq]
    cases hg : dictGet? s.data_store item_id with
    | none => exact ⟨h, hlt⟩
    | some it =>
      refine ⟨?_, hlt⟩
      by_cases hk : k = item_id
      · subst hk
        exact dictContains_dictDel_self
      · rw [dictContains_dictDel_ne hk]
        exact h

theorem absent_runOps {k : Int} (ops : List Op) :
    ∀ s : StoreState, dictContains s.data_store k = false → k < s.next_id →
      dictContains (runOps s ops).data_store k = false := by
  induction ops with
  | nil => intro s h _; exact h
  | cons op rest ih =>
    intro s h hlt
    rw [runOps]
    obtain ⟨h', hlt'⟩ := absent_applyOp op h hlt
    exact ih _ h' hlt'

theorem createdEq_create {s : StoreState} {now : Nat} {f : ItemFields}
    (h : ∀ p ∈ s.data_store, p.2.created_at = p.2.updated_at) :
    ∀ p ∈ (create_item s now f).2.data_store,
      p.2.created_at = p.2.updated_at := by
  intro p hp
  simp only [create_item] at hp
  rcases mem_dictSet hp with rfl | hmem
  · rfl
  · exact h p hmem

theorem createdEq_init_loop (lst : List (ItemFields × Nat)) :
    ∀ s : StoreState, (∀ p ∈ s.data_store, p.2.created_at = p.2.updated_at) →
      ∀ p ∈ (init_loop s lst).data_store,
        p.2.created_at = p.2.updated_at := by
  induction lst with
  | nil => intro s h; exact h
  | cons ft rest ih =>
    intro s h
    rw [init_loop]
    exact ih _ (createdEq_create h)

/-! ## The claims -/

/-- C1: starting from the demo-initialized state, the ids issued at startup
(1–5) followed by the ids returned by POST /items along any request sequence
form a strictly increasing list, so each id returned by create is strictly
greater than every id ever issued before it — including ids of items that
were deleted in the meantime — and no id is ever reused. -/
theorem c1_issued_ids_strictly_increasing (t1 t2 t3 t4 t5 : Nat)
    (ops : List Op) :
    List.Pairwise (· < ·)
      (([1, 2, 3, 4, 5] : List Int) ++
        issuedIds (initialize_demo_data [t1, t2, t3, t4, t5]) ops) := by
  have hn : (initialize_demo_data [t1, t2, t3, t4, t5]).next_id = 6 := rfl
  rw [List.pairwise_append]
  refine ⟨by decide, pairwise_issuedIds ops _, ?_⟩
  intro a ha i hi
  have h6 : (6 : Int) ≤ i := by
    have := le_of_mem_issuedIds ops _ i hi
    rw [hn] at this
    exact this
  fin_cases ha <;> omega

/-- C2: for every state and every body accepted by validation, POST /items
succeeds and a GET on the returned id yields the very item that was
returned, with exactly the submitted field values and with
`created_at = updated_at`. -/
theorem c2_create_then_get (s : StoreState) (now : Nat) (f : ItemFields)
    (hv : validFields f = true) :
    ∃ it s2, post_items s now f = (.ok it, s2) ∧
      get_item_by_id s2 it.id = .ok it ∧
      it.fields = f ∧ it.created_at = it.updated_at := by
  rw [post_items, if_pos hv]
  refine ⟨(create_item s now f).1, (create_item s now f).2, rfl, ?_, rfl, rfl⟩
  rw [get_item_by_id_eq]
  have hsome : dictGet? (create_item s now f).2.data_store
      (create_item s now f).1.id = some (create_item s now f).1 := by
    simp only [create_item]
    exact dictGet?_dictSet_self
  rw [hsome]

/-- Witness for C2: the sample body is accepted and creating then getting in
the fresh store behaves as stated. -/
theorem c2_create_then_get_witness :
    validFields sampleFields = true ∧
      (∃ it s2, post_items emptyState 0 sampleFields = (.ok it, s2) ∧
        get_item_by_id s2 it.id = .ok it ∧
        it.fields = sampleFields ∧ it.created_at = it.updated_at) :=
  ⟨by decide, c2_create_then_get emptyState 0 sampleFields (by decide)⟩

/-- C4: a GET returns the stored item exactly when the id is present; when it
is absent, GET fails with the 404 NotFound error carrying the message
"Item with id \x7bid\x7d not found", and the update and delete handlers fail
with that same error under the same absence condition. -/
theorem c4_notfound_behavior (s : StoreState) (item_id : Int) (now : Nat)
    (f : ItemFields) :
    (∀ it, dictGet? s.data_store item_id = some it →
        get_item_by_id s item_id = .ok it) ∧
      (dictGet? s.data_store item_id = none →
        get_item_by_id s item_id = .error (notFound item_id) ∧
          (update_item s now item_id f).1 = .error (notFound item_id) ∧
          (delete_item s item_id).1 = .error (notFound item_id)) ∧
      notFound item_id =
        .httpException 404
          ("Item with id " ++ toString item_id ++ " not found") := by
  refine ⟨?_, ?_, rfl⟩
  · intro it hit
    rw [get_item_by_id_eq, hit]
  · intro hnone
    rw [get_item_by_id_eq, update_item_eq, delete_item_eq, hnone]
    exact ⟨rfl, rfl, rfl⟩

/-- Witness for C4: in the one-item store holding only id 1, GET of id 1
returns the stored item, and GET/PUT/DELETE of id 7 all fail with the 404
NotFound error. -/
theorem c4_notfound_behavior_witness :
    get_item_by_id (create_item emptyState 0 sampleFields).2 1
        = .ok ⟨1, "Widget", none, 10, 5, 0, 0⟩ ∧
      get_item_by_id (create_item emptyState 0 sampleFields).2 7
          = .error (notFound 7) ∧
      (update_item (create_item emptyState 0 sampleFields).2 0 7 sampleFields).1
          = .error (notFound 7) ∧
      (delete_item (create_item emptyState 0 sampleFields).2 7).1
          = .error (notFound 7) :=
  ⟨(c4_notfound_behavior (create_item emptyState 0 sampleFields).2 1 0
      sampleFields).1 ⟨1, "Widget", none, 10, 5, 0, 0⟩ (by decide),
   (c4_notfound_behavior (create_item emptyState 0 sampleFields).2 7 0
      sampleFields).2.1 (by decide)⟩

/-- C3: for an id present in the store and an accepted replacement body,
PUT /items/\x7bid\x7d succeeds, keeps the key's id (hence the item's id,
when the stored record carried that id) and the previous `created_at`,
overwrites name/description/price/quantity with the given values, sets
`updated_at` to the current clock reading — which is ≥ the previous
`updated_at` under a monotone clock — stores the result back under the same
id, and returns it; the id counter is untouched. -/
theorem c3_update_spec (s : StoreState) (now : Nat) (item_id : Int)
    (f : ItemFields) (prev : Item)
    (hprev : dictGet? s.data_store item_id = some prev)
    (hv : validFields f = true) (hclock : prev.updated_at ≤ now) :
    ∃ it s2, put_items s now item_id f = (.ok it, s2) ∧
      it.id = item_id ∧ (prev.id = item_id → it.id = prev.id) ∧
      it.created_at = prev.created_at ∧ it.fields = f ∧
      it.updated_at = now ∧ prev.updated_at ≤ it.updated_at ∧
      dictGet? s2.data_store item_id = some it ∧ s2.next_id = s.next_id := by
  rw [put_items, if_pos hv, update_item_eq, hprev]
  refine ⟨_, _, rfl, rfl, fun h => h.symm, rfl, rfl, rfl, hclock, ?_, rfl⟩
  exact dictGet?_dictSet_self

/-- Witness for C3: updating item 1 of the one-item store with the second
sample body at clock 3. -/
theorem c3_update_spec_witness :
    dictGet? (create_item emptyState 0 sampleFields).2.data_store 1
        = some ⟨1, "Widget", none, 10, 5, 0, 0⟩ ∧
      validFields sampleFields2 = true ∧
      (⟨1, "Widget", none, 10, 5, 0, 0⟩ : Item).updated_at ≤ 3 ∧
      (∃ it s2,
        put_items (create_item emptyState 0 sampleFields).2 3 1 sampleFields2
            = (.ok it, s2) ∧
          it.id = 1 ∧
          ((⟨1, "Widget", none, 10, 5, 0, 0⟩ : Item).id = 1 →
            it.id = (⟨1, "Widget", none, 10, 5, 0, 0⟩ : Item).id) ∧
          it.created_at = (⟨1, "Widget", none, 10, 5, 0, 0⟩ : Item).created_at ∧
          it.fields = sampleFields2 ∧
          it.updated_at = 3 ∧
          (⟨1, "Widget", none, 10, 5, 0, 0⟩ : Item).updated_at ≤ it.updated_at ∧
          dictGet? s2.data_store 1 = some it ∧
          s2.next_id = (create_item emptyState 0 sampleFields).2.next_id) :=
  ⟨by decide, by decide, by decide,
   c3_update_spec (create_item emptyState 0 sampleFields).2 3 1 sampleFields2
     ⟨1, "Widget", none, 10, 5, 0, 0⟩ (by decide) (by decide) (by decide)⟩

/-- C5: deleting a present id succeeds with no content and removes the item;
afterwards GET, PUT and DELETE on that id all fail with the 404 NotFound
error, and — because ids are never reissued — the id stays absent after any
further sequence of requests. -/
theorem c5_delete_then_notfound (s : StoreState) (item_id : Int) (it : Item)
    (now : Nat) (f : ItemFields) (ops : List Op)
    (hK : KeysLt s) (hit : dictGet? s.data_store item_id = some it) :
    ∃ s2, delete_item s item_id = (.ok (), s2) ∧
      dictGet? s2.data_store item_id = none ∧
      get_item_by_id s2 item_id = .error (notFound item_id) ∧
      (update_item s2 now item_id f).1 = .error (notFound item_id) ∧
      (delete_item s2 item_id).1 = .error (notFound item_id) ∧
      dictContains (runOps s2 ops).data_store item_id = false := by
  rw [delete_item_eq, hit]
  refine ⟨_, rfl, ?_⟩
  have hnone : dictGet? (dictDel s.data_store item_id) item_id = none :=
    dictGet?_dictDel_self
  have hlt : item_id < s.next_id := by
    have := hK _ (mem_of_dictGet? hit)
    simpa using this
  refine ⟨hnone, ?_, ?_, ?_, ?_⟩
  · rw [get_item_by_id_eq]
    simp only []
    rw [hnone]
  · rw [update_item_eq]
    simp only []
    rw [hnone]
  · rw [delete_item_eq]
    simp only []
    rw [hnone]
  · exact absent_runOps ops _ dictContains_dictDel_self hlt

/-- Witness for C5: deleting id 3 of the demo state, then checking id 3 stays
absent after a further create request. -/
theorem c5_delete_then_notfound_witness :
    KeysLt demoStateZero ∧
      dictGet? demoStateZero.data_store 3
          = some ⟨3, "USB-C Hub",
              some "7-in-1 USB-C hub with HDMI, USB 3.0, and SD card reader",
              (4999 : Rat) / 100, 200, 0, 0⟩ ∧
      (∃ s2, delete_item demoStateZero 3 = (.ok (), s2) ∧
        dictGet? s2.data_store 3 = none ∧
        get_item_by_id s2 3 = .error (notFound 3) ∧
        (update_item s2 9 3 sampleFields).1 = .error (notFound 3) ∧
        (delete_item s2 3).1 = .error (notFound 3) ∧
        dictContains (runOps s2 [.post 9 sampleFields]).data_store 3 = false) :=
  ⟨by unfold KeysLt; decide, rfl,
   c5_delete_then_notfound demoStateZero 3
     ⟨3, "USB-C Hub",
       some "7-in-1 USB-C hub with HDMI, USB 3.0, and SD card reader",
       (4999 : Rat) / 100, 200, 0, 0⟩
     9 sampleFields [.post 9 sampleFields] (by unfold KeysLt; decide) rfl⟩

/-- C6: validation rejects a body exactly when the name is empty or longer
than 100 characters, the description is present and longer than 500
characters, the price is ≤ 0, or the quantity is < 0; a rejected body makes
POST and PUT fail with a validation error leaving the state untouched, and
an accepted body makes POST succeed. -/
theorem c6_validation (s : StoreState) (now : Nat) (item_id : Int)
    (f : ItemFields) :
    (validFields f = false ↔
      f.name.length = 0 ∨ 100 < f.name.length ∨
        (∃ d, f.description = some d ∧ 500 < d.length) ∨
        f.price ≤ 0 ∨ f.quantity < 0) ∧
      (validFields f = false →
        post_items s now f = (.error .validationError, s) ∧
          put_items s now item_id f = (.error .validationError, s)) ∧
      (validFields f = true →
        ∃ it s2, post_items s now f = (.ok it, s2)) := by
  have hval : validFields f = true ↔
      (1 ≤ f.name.length ∧ f.name.length ≤ 100 ∧
        (∀ d, f.description = some d → d.length ≤ 500) ∧
        0 < f.price ∧ 0 ≤ f.quantity) := by
    unfold validFields
    cases hd : f.description with
    | none => simp [hd]; tauto
    | some d => simp [hd]; tauto
  refine ⟨?_, ?_, ?_⟩
  · rw [Bool.eq_false_iff, Ne, hval]
    constructor
    · intro h
      by_cases h1 : 1 ≤ f.name.length
      · by_cases h2 : f.name.length ≤ 100
        · by_cases h3 : ∀ d, f.description = some d → d.length ≤ 500
          · by_cases h4 : 0 < f.price
            · by_cases h5 : 0 ≤ f.quantity
              · exact absurd ⟨h1, h2, h3, h4, h5⟩ h
              · exact Or.inr (Or.inr (Or.inr (Or.inr (by omega))))
            · exact Or.inr (Or.inr (Or.inr (Or.inl (not_lt.mp h4))))
          · push_neg at h3
            obtain ⟨d, hd1, hd2⟩ := h3
            exact Or.inr (Or.inr (Or.inl ⟨d, hd1, hd2⟩))
        · exact Or.inr (Or.inl (not_le.mp h2))
      · exact Or.inl (by omega)
    · rintro (h | h | ⟨d, hd1, hd2⟩ | h | h) ⟨h1, h2, h3, h4, h5⟩
      · omega
      · omega
      · exact absurd (h3 d hd1) (by omega)
      · exact absurd h4 (not_lt.mpr h)
      · exact absurd h5 (not_le.mpr h)
  · intro h
    rw [post_items, put_items, if_neg (by simp [h]), if_neg (by simp [h])]
    exact ⟨rfl, rfl⟩
  · intro h
    rw [post_items, if_pos h]
    exact ⟨_, _, rfl⟩

/-- Witness for C6: the empty-name body is rejected by POST and PUT in the
fresh store, and the valid sample body is accepted. -/
theorem c6_validation_witness :
    validFields badFields = false ∧
      post_items emptyState 0 badFields
          = (.error .validationError, emptyState) ∧
      put_items emptyState 0 1 badFields
          = (.error .validationError, emptyState) ∧
      (validFields sampleFields = true →
        ∃ it s2, post_items emptyState 0 sampleFields = (.ok it, s2)) :=
  ⟨by decide,
   ((c6_validation emptyState 0 1 badFields).2.1 (by decide)).1,
   ((c6_validation emptyState 0 1 badFields).2.1 (by decide)).2,
   fun _ => (c6_validation emptyState 0 1 sampleFields).2.2 (by decide)⟩

/-- C7: if every stored item has `created_at ≤ updated_at` with both bounded
by the last clock reading, and stored keys are below the id counter, then
any one operation served with a clock that has not gone backwards preserves
both facts, and it never changes the `created_at` of an item that survives
it — create stamps both timestamps with the same current time and update
refreshes only `updated_at`. -/
theorem c7_timestamps (s : StoreState) (T : Nat) (op : Op)
    (hK : KeysLt s) (hT : TimeOK s T) (hclock : T ≤ opBound T op) :
    TimeOK (applyOp s op) (opBound T op) ∧ KeysLt (applyOp s op) ∧
      ∀ k it it', dictGet? s.data_store k = some it →
        dictGet? (applyOp s op).data_store k = some it' →
        it'.created_at = it.created_at :=
  ⟨TimeOK_applyOp op hT hclock, KeysLt_applyOp op hK,
   fun _ _ _ h h' => created_at_stable op hK h h'⟩

/-- Witness for C7: the demo state at clock 0, served a PUT on id 1 at
clock 4. -/
theorem c7_timestamps_witness :
    KeysLt demoStateZero ∧ TimeOK demoStateZero 0 ∧
      (0 : Nat) ≤ opBound 0 (.put 4 1 sampleFields) ∧
      (TimeOK (applyOp demoStateZero (.put 4 1 sampleFields))
          (opBound 0 (.put 4 1 sampleFields)) ∧
        KeysLt (applyOp demoStateZero (.put 4 1 sampleFields)) ∧
        ∀ k it it', dictGet? demoStateZero.data_store k = some it →
          dictGet? (applyOp demoStateZero (.put 4 1 sampleFields)).data_store k
              = some it' →
          it'.created_at = it.created_at) :=
  ⟨by unfold KeysLt; decide, by unfold TimeOK; decide, by decide,
   c7_timestamps demoStateZero 0 (.put 4 1 sampleFields)
     (by unfold KeysLt; decide) (by unfold TimeOK; decide) (by decide)⟩

/-- C8: the demo-initialized store has pairwise distinct keys with each
record's id field equal to its key, and every operation preserves this
well-keyedness, so every item in the store always has a unique id. -/
theorem c8_unique_ids (ts : List Nat) (s : StoreState) (op : Op)
    (h : GoodKeys s) :
    GoodKeys (initialize_demo_data ts) ∧ GoodKeys (applyOp s op) := by
  refine ⟨?_, goodKeys_applyOp op h⟩
  apply goodKeys_init_loop
  constructor
  · simp [emptyState]
  · intro p hp
    simp [emptyState] at hp

/-- Witness for C8: the demo state is well-keyed and stays so after a
delete. -/
theorem c8_unique_ids_witness :
    GoodKeys demoStateZero ∧
      (GoodKeys (initialize_demo_data [0, 0, 0, 0, 0]) ∧
        GoodKeys (applyOp demoStateZero (.del 2))) :=
  ⟨by unfold GoodKeys; constructor <;> decide,
   c8_unique_ids [0, 0, 0, 0, 0] demoStateZero (.del 2)
     (by unfold GoodKeys; constructor <;> decide)⟩

/-- C9: whatever the five startup clock readings were, the store right after
`initialize_demo_data` is non-empty: its keys are exactly 1,2,3,4,5 in order,
the stored payloads are exactly the five demo payloads, every pre-loaded item
has `created_at = updated_at`, the id counter stands at 6, and the first
accepted client POST receives id 6. -/
theorem c9_demo_init (t1 t2 t3 t4 t5 : Nat) :
    (initialize_demo_data [t1, t2, t3, t4, t5]).next_id = 6 ∧
      (initialize_demo_data [t1, t2, t3, t4, t5]).data_store.map Prod.fst
          = [1, 2, 3, 4, 5] ∧
      (get_all_items (initialize_demo_data [t1, t2, t3, t4, t5])).map
          Item.fields = demo_items ∧
      (∀ p ∈ (initialize_demo_data [t1, t2, t3, t4, t5]).data_store,
        p.2.created_at = p.2.updated_at) ∧
      ∀ f now, validFields f = true →
        ∃ it s2,
          post_items (initialize_demo_data [t1, t2, t3, t4, t5]) now f
              = (.ok it, s2) ∧ it.id = 6 := by
  refine ⟨rfl, rfl, rfl, ?_, ?_⟩
  · apply createdEq_init_loop
    intro p hp
    simp [emptyState] at hp
  · intro f now hv
    rw [post_items, if_pos hv]
    exact ⟨_, _, rfl, rfl⟩

/-- Witness for C9: the demo state at clock 0, with the sample body posted at
clock 7 receiving id 6. -/
theorem c9_demo_init_witness :
    (initialize_demo_data [0, 0, 0, 0, 0]).next_id = 6 ∧
      (∃ it s2,
        post_items (initialize_demo_data [0, 0, 0, 0, 0]) 7 sampleFields
            = (.ok it, s2) ∧ it.id = 6) :=
  ⟨(c9_demo_init 0 0 0 0 0).1,
   (c9_demo_init 0 0 0 0 0).2.2.2.2 sampleFields 7 (by decide)⟩

/-- C10: a NotFound failure is atomic — a GET never changes the state, and
whenever the update or delete handler returns an error, the store mapping and
the id counter are exactly as before the call. -/
theorem c10_notfound_atomic (s : StoreState) (now : Nat) (item_id : Int)
    (f : ItemFields) :
    applyOp s (.get item_id) = s ∧
      (∀ e, (update_item s now item_id f).1 = .error e →
        (update_item s now item_id f).2 = s) ∧
      ∀ e, (delete_item s item_id).1 = .error e →
        (delete_item s item_id).2 = s := by
  refine ⟨rfl, ?_, ?_⟩
  · intro e he
    rw [update_item_eq] at he ⊢
    cases hg : dictGet? s.data_store item_id with
    | none => rfl
    | some it =>
      rw [hg] at he
      simp at he
  · intro e he
    rw [delete_item_eq] at he ⊢
    cases hg : dictGet? s.data_store item_id with
    | none => rfl
    | some it =>
      rw [hg] at he
      simp at he

/-- Witness for C10: failed update and delete of the absent id 7 in the demo
state leave the state unchanged. -/
theorem c10_notfound_atomic_witness :
    applyOp demoStateZero (.get 7) = demoStateZero ∧
      (update_item demoStateZero 1 7 sampleFields).1 = .error (notFound 7) ∧
      (update_item demoStateZero 1 7 sampleFields).2 = demoStateZero ∧
      (delete_item demoStateZero 7).2 = demoStateZero :=
  ⟨(c10_notfound_atomic demoStateZero 1 7 sampleFields).1, rfl,
   (c10_notfound_atomic demoStateZero 1 7 sampleFields).2.1 (notFound 7) rfl,
   (c10_notfound_atomic demoStateZero 1 7 sampleFields).2.2 (notFound 7) rfl⟩
